import Mathlib

set_option maxHeartbeats 1000000

/- Shallow embedding of the AUBus matching server (src/backend/server.py and
src/backend/db_api.py).  Python strings are modelled as Lean `String` or
`List Char`; database tables as lists of row structures; the in-memory
presence dictionaries as association lists.  Digits are modelled as the
ASCII digits `0`..`9`. -/

/-! ## Time/Schedule utility (db_api.time_to_seconds, weekday_to_int) -/

/-- The whitespace characters stripped by Python `str.strip()` and matched by
the regex class the `strptime` machinery compiles a format-string blank into
(ASCII subset). -/
def pyWS (c : Char) : Bool :=
  c = ' ' || c = '\t' || c = '\n' || c = '\r' || c = '\x0b' || c = '\x0c'

/-- Python `str.strip()` on a character list. -/
def pystrip (cs : List Char) : List Char :=
  ((cs.dropWhile pyWS).reverse.dropWhile pyWS).reverse

/-- Numeric value of a run of ASCII digits. -/
def digitsVal (ds : List Char) : Nat :=
  ds.foldl (fun a c => a * 10 + (c.toNat - 48)) 0

/-- A `strptime` numeric field: one or two digits whose value lies in
`[lo, hi]`.  (`%H` is `lo=0, hi=23`; `%M` is `0..59`; `%I` is `1..12`,
which also rejects the strings "0" and "00".) -/
def field12 (ds : List Char) (lo hi : Nat) : Option Nat :=
  if 1 ≤ ds.length ∧ ds.length ≤ 2 ∧ lo ≤ digitsVal ds ∧ digitsVal ds ≤ hi then
    some (digitsVal ds)
  else none

/-- `strptime(s, "%H:%M")`, as seconds from midnight. -/
def parseHM (cs : List Char) : Option Int :=
  let p1 := cs.span Char.isDigit
  match field12 p1.1 0 23, p1.2 with
  | some h, ':' :: r2 =>
    let p2 := r2.span Char.isDigit
    match field12 p2.1 0 59, p2.2 with
    | some m, [] => some ((h : Int) * 3600 + (m : Int) * 60)
    | _, _ => none
  | _, _ => none

/-- `strptime(s, "%H:%M:%S")`, as seconds from midnight.  The `%S` regex also
matches 60 and 61, but `datetime` then rejects such a value, so the format as
a whole fails and the next format is tried; this is the same as bounding the
field by 59 here. -/
def parseHMS (cs : List Char) : Option Int :=
  let p1 := cs.span Char.isDigit
  match field12 p1.1 0 23, p1.2 with
  | some h, ':' :: r2 =>
    let p2 := r2.span Char.isDigit
    match field12 p2.1 0 59, p2.2 with
    | some m, ':' :: r4 =>
      let p3 := r4.span Char.isDigit
      match field12 p3.1 0 59, p3.2 with
      | some s, [] => some ((h : Int) * 3600 + (m : Int) * 60 + (s : Int))
      | _, _ => none
    | _, _ => none
  | _, _ => none

/-- The `"%I:%M"` core shared by both AM/PM formats: a 12-hour field, a colon
and a minute field, consuming the whole input. -/
def parseIM (cs : List Char) : Option (Nat × Nat) :=
  let p1 := cs.span Char.isDigit
  match field12 p1.1 1 12, p1.2 with
  | some h, ':' :: r2 =>
    let p2 := r2.span Char.isDigit
    match field12 p2.1 0 59, p2.2 with
    | some m, [] => some (h, m)
    | _, _ => none
  | _, _ => none

/-- The `%p` field: `am`/`pm`, case-insensitively (the `strptime` regex is
compiled with IGNORECASE).  `false` is AM, `true` is PM. -/
def amPmVal (c1 c2 : Char) : Option Bool :=
  if c2.toLower = 'm' then
    if c1.toLower = 'a' then some false
    else if c1.toLower = 'p' then some true
    else none
  else none

/-- 12-hour to 24-hour conversion performed by `datetime` for `%I`/`%p`. -/
def amPmHour (h : Nat) (pm : Bool) : Nat :=
  h % 12 + (if pm then 12 else 0)

/-- Split off the final two characters of a string (where the anchored
`(am|pm)$` alternation must match). -/
def splitLast2 (cs : List Char) : Option (List Char × Char × Char) :=
  match cs.reverse with
  | c2 :: c1 :: rest => some (rest.reverse, c1, c2)
  | _ => none

/-- Drop the maximal run of trailing whitespace. -/
def dropTrailingWS (cs : List Char) : List Char :=
  (cs.reverse.dropWhile pyWS).reverse

/-- `strptime(s, "%I:%M%p")`, as seconds from midnight. -/
def parseIMpNoSpace (cs : List Char) : Option Int :=
  match splitLast2 cs with
  | some (front, c1, c2) =>
    match amPmVal c1 c2, parseIM front with
    | some pm, some hm => some ((amPmHour hm.1 pm : Int) * 3600 + (hm.2 : Int) * 60)
    | _, _ => none
  | none => none

/-- `strptime(s, "%I:%M %p")`, as seconds from midnight.  The blank in the
format is compiled to a nonempty whitespace run. -/
def parseIMpSpace (cs : List Char) : Option Int :=
  match splitLast2 cs with
  | some (front, c1, c2) =>
    match amPmVal c1 c2 with
    | some pm =>
      let front2 := dropTrailingWS front
      if front2.length < front.length then
        match parseIM front2 with
        | some hm => some ((amPmHour hm.1 pm : Int) * 3600 + (hm.2 : Int) * 60)
        | none => none
      else none
    | none => none
  | none => none

/-- The extra block of `time_to_seconds` (db_api.py lines 21-28): if the
stripped string ends in am/pm (case-insensitively) but not in a blank
followed by am/pm, a blank is inserted before the suffix and
`"%I:%M %p"` is tried on the transformed string. -/
def hackAmPm (cs : List Char) : Option Int :=
  match splitLast2 cs with
  | some (front, c1, c2) =>
    match amPmVal c1 c2 with
    | some _ =>
      match front.getLast? with
      | some ' ' => none
      | _ => parseIMpSpace (front ++ [' ', c1, c2])
    | none => none
  | none => none

/-- Python `int(...)` grouped-digit scan: nonempty digits with single
underscores allowed between digits.  The boolean argument records whether the
previous character was a digit. -/
def pyDigitsGo : List Char → Bool → Nat → Option Nat
  | [], prev, acc => if prev then some acc else none
  | c :: rest, prev, acc =>
    if c.isDigit then pyDigitsGo rest true (acc * 10 + (c.toNat - 48))
    else if c = '_' ∧ prev then pyDigitsGo rest false acc
    else none

/-- Python `int(str)`: optional surrounding whitespace, optional sign, then
grouped digits. -/
def pyInt (cs : List Char) : Option Int :=
  match pystrip cs with
  | '+' :: rest => (pyDigitsGo rest false 0).map (fun n => (n : Int))
  | '-' :: rest => (pyDigitsGo rest false 0).map (fun n => -(n : Int))
  | rest => (pyDigitsGo rest false 0).map (fun n => (n : Int))

/-- db_api.time_to_seconds: try `%H:%M`, `%H:%M:%S`, `%I:%M %p`, `%I:%M%p`
in order, then the insert-a-blank am/pm block, then `int(...)`; raise
`ValueError` otherwise (modelled as `Except.error`). -/
def time_to_seconds (time_str : String) : Except String Int :=
  let cs := pystrip time_str.data
  match parseHM cs with
  | some v => .ok v
  | none =>
    match parseHMS cs with
    | some v => .ok v
    | none =>
      match parseIMpSpace cs with
      | some v => .ok v
      | none =>
        match parseIMpNoSpace cs with
        | some v => .ok v
        | none =>
          match hackAmPm cs with
          | some v => .ok v
          | none =>
            match pyInt time_str.data with
            | some n => .ok n
            | none => .error ("Unrecognized time format: " ++ time_str)

/-- The time parser exactly as the specification's sentence states it: the
four formats `HH:MM`, `HH:MM:SS`, `H:MM AM/PM` with a blank and `H:MMAM/PM`
without one, tried in that priority order; if none matches, a valid integer
string is returned as that integer number of seconds; otherwise an
invalid-time-format error. -/
def parseTimeOfDay (time_str : String) : Except String Int :=
  let cs := pystrip time_str.data
  match parseHM cs with
  | some v => .ok v
  | none =>
    match parseHMS cs with
    | some v => .ok v
    | none =>
      match parseIMpSpace cs with
      | some v => .ok v
      | none =>
        match parseIMpNoSpace cs with
        | some v => .ok v
        | none =>
          match pyInt time_str.data with
          | some n => .ok n
          | none => .error ("Unrecognized time format: " ++ time_str)

/-- db_api.weekday_to_int: weekday name, case-insensitively, to 0..6; a
`KeyError` for any other string is modelled as `none`. -/
def weekday_to_int (name : String) : Option Int :=
  let low := String.mk (name.data.map Char.toLower)
  if low = "monday" then some 0
  else if low = "tuesday" then some 1
  else if low = "wednesday" then some 2
  else if low = "thursday" then some 3
  else if low = "friday" then some 4
  else if low = "saturday" then some 5
  else if low = "sunday" then some 6
  else none

example : time_to_seconds "08:00" = .ok 28800 := rfl
example : time_to_seconds "8:30" = .ok 30600 := rfl
example : time_to_seconds "08:00:30" = .ok 28830 := rfl
example : time_to_seconds "8:30AM" = .ok 30600 := rfl
example : time_to_seconds "8:30 pm" = .ok 73800 := rfl
example : time_to_seconds "12:15am" = .ok 900 := rfl
example : time_to_seconds "12:15PM" = .ok 44100 := rfl
example : time_to_seconds " 123 " = .ok 123 := rfl
example : time_to_seconds "-5" = .ok (-5) := rfl
example : time_to_seconds "25:00" = .error "Unrecognized time format: 25:00" := rfl
example : weekday_to_int "MonDay" = some 0 := rfl

/-! ## Redundancy of the insert-a-blank block -/

theorem splitLast2_append2 (l : List Char) (a b : Char) :
    splitLast2 (l ++ [a, b]) = some (l, a, b) := by
  unfold splitLast2
  rw [List.reverse_append]
  simp

theorem splitLast2_eq_some {cs front : List Char} {c1 c2 : Char}
    (h : splitLast2 cs = some (front, c1, c2)) : cs = front ++ [c1, c2] := by
  unfold splitLast2 at h
  cases hr : cs.reverse with
  | nil => rw [hr] at h; simp at h
  | cons x t =>
    cases t with
    | nil => rw [hr] at h; simp at h
    | cons y t2 =>
      rw [hr] at h
      simp only [Option.some.injEq, Prod.mk.injEq] at h
      obtain ⟨h1, h2, h3⟩ := h
      have : cs = (x :: y :: t2).reverse := by
        rw [← hr, List.reverse_reverse]
      rw [this, ← h1, ← h2, ← h3]
      simp

theorem dropWhile_self_or_length_lt (p : Char → Bool) (l : List Char) :
    l.dropWhile p = l ∨ (l.dropWhile p).length < l.length := by
  induction l with
  | nil => left; rfl
  | cons a t ih =>
    by_cases hp : p a
    · right
      rw [List.dropWhile_cons, if_pos hp]
      have hle : (t.dropWhile p).length ≤ t.length := by
        rcases ih with h | h
        · rw [h]
        · exact le_of_lt h
      simpa using Nat.lt_succ_of_le hle
    · left
      rw [List.dropWhile_cons, if_neg hp]

theorem length_dropTrailingWS_le (l : List Char) :
    (dropTrailingWS l).length ≤ l.length := by
  unfold dropTrailingWS
  rcases dropWhile_self_or_length_lt pyWS l.reverse with h | h
  · rw [h]; simp
  · simp only [List.length_reverse] at h ⊢
    exact le_of_lt h

theorem dropTrailingWS_self_or_length_lt (l : List Char) :
    dropTrailingWS l = l ∨ (dropTrailingWS l).length < l.length := by
  unfold dropTrailingWS
  rcases dropWhile_self_or_length_lt pyWS l.reverse with h | h
  · left; rw [h, List.reverse_reverse]
  · right
    simp only [List.length_reverse] at h ⊢
    exact h

theorem dropTrailingWS_append_ws {c : Char} (hc : pyWS c = true) (l : List Char) :
    dropTrailingWS (l ++ [c]) = dropTrailingWS l := by
  unfold dropTrailingWS
  rw [List.reverse_append]
  simp [List.dropWhile_cons, hc]

/-- If neither AM/PM strptime format accepts the stripped string, then the
insert-a-blank block of `time_to_seconds` cannot accept it either: the block
is redundant. -/
theorem hackAmPm_eq_none {cs : List Char}
    (h3 : parseIMpSpace cs = none) (h4 : parseIMpNoSpace cs = none) :
    hackAmPm cs = none := by
  unfold hackAmPm
  cases hsplit : splitLast2 cs with
  | none => simp
  | some t =>
    obtain ⟨front, c1, c2⟩ := t
    cases hap : amPmVal c1 c2 with
    | none => simp [hap]
    | some pm =>
      suffices hs : parseIMpSpace (front ++ [' ', c1, c2]) = none by
        simp only [hap, hs]
        split <;> rfl
      have hsp2 : splitLast2 (front ++ [' ', c1, c2]) = some (front ++ [' '], c1, c2) := by
        have hassoc : front ++ [' ', c1, c2] = (front ++ [' ']) ++ [c1, c2] := by simp
        rw [hassoc, splitLast2_append2]
      have hws : dropTrailingWS (front ++ [' ']) = dropTrailingWS front :=
        dropTrailingWS_append_ws (by decide) front
      have hlen : (dropTrailingWS front).length < (front ++ [' ']).length := by
        have := length_dropTrailingWS_le front
        simp only [List.length_append, List.length_cons, List.length_nil]
        omega
      simp only [parseIMpSpace, hsp2, hap, hws]
      rw [if_pos hlen]
      rcases dropTrailingWS_self_or_length_lt front with heq | hlt
      · rw [heq]
        have hpi : parseIM front = none := by
          simp only [parseIMpNoSpace, hsplit, hap] at h4
          cases hpi : parseIM front with
          | none => rfl
          | some hm => rw [hpi] at h4; simp at h4
        simp [hpi]
      · have hpi : parseIM (dropTrailingWS front) = none := by
          simp only [parseIMpSpace, hsplit, hap] at h3
          rw [if_pos hlt] at h3
          cases hpi : parseIM (dropTrailingWS front) with
          | none => rfl
          | some hm => rw [hpi] at h3; simp at h3
        simp [hpi]

/-- C9: for every input string, time_to_seconds tries HH:MM, HH:MM:SS,
H:MM AM/PM with a blank, and H:MMAM/PM without one, in that priority order,
returning the parsed seconds for the first format that matches; if none
matches, a valid integer string is returned as that integer number of
seconds; otherwise it fails with an invalid-time-format error.  Stated as:
the source function coincides with the parser the specification describes
(which omits the redundant insert-a-blank block). -/
theorem time_to_seconds_matches_spec (s : String) :
    time_to_seconds s = parseTimeOfDay s := by
  unfold time_to_seconds parseTimeOfDay
  cases h1 : parseHM (pystrip s.data) with
  | some v => simp [h1]
  | none =>
    cases h2 : parseHMS (pystrip s.data) with
    | some v => simp [h1, h2]
    | none =>
      cases h3 : parseIMpSpace (pystrip s.data) with
      | some v => simp [h1, h2, h3]
      | none =>
        cases h4 : parseIMpNoSpace (pystrip s.data) with
        | some v => simp [h1, h2, h3, h4]
        | none =>
          simp [h1, h2, h3, h4, hackAmPm_eq_none h3 h4]

/-- Witness for C9 at concrete inputs. -/
theorem time_to_seconds_matches_spec_witness :
    time_to_seconds "7:45 pm" = parseTimeOfDay "7:45 pm" ∧
      time_to_seconds "7:45pm" = parseTimeOfDay "7:45pm" ∧
      time_to_seconds "bogus" = parseTimeOfDay "bogus" :=
  ⟨time_to_seconds_matches_spec "7:45 pm", time_to_seconds_matches_spec "7:45pm",
    time_to_seconds_matches_spec "bogus"⟩

/-! ## Presence registry (server.py globals: connected_drivers,
connected_passengers, driver_status) -/

/-- Lookup in a Python-dict-like association list (`d.get(k)`). -/
def lookupA {α : Type} : List (String × α) → String → Option α
  | [], _ => none
  | (k', v) :: rest, k => if k' = k then some v else lookupA rest k

/-- Insertion/update in a Python-dict-like association list (`d[k] = v`). -/
def insertA {α : Type} : List (String × α) → String → α → List (String × α)
  | [], k, v => [(k, v)]
  | (k', v') :: rest, k, v =>
    if k' = k then (k, v) :: rest else (k', v') :: insertA rest k v

/-- Removal from a Python-dict-like association list (`d.pop(k, None)`). -/
def removeA {α : Type} (l : List (String × α)) (k : String) : List (String × α) :=
  l.filter (fun p => p.1 ≠ k)

theorem lookupA_insertA_self {α : Type} (l : List (String × α)) (k : String) (v : α) :
    lookupA (insertA l k v) k = some v := by
  induction l with
  | nil => simp [insertA, lookupA]
  | cons p rest ih =>
    obtain ⟨k', v'⟩ := p
    by_cases h : k' = k
    · simp [insertA, lookupA, h]
    · simp [insertA, lookupA, h, ih]

theorem lookupA_removeA_self {α : Type} (l : List (String × α)) (k : String) :
    lookupA (removeA l k) k = none := by
  induction l with
  | nil => rfl
  | cons p rest ih =>
    obtain ⟨k', v'⟩ := p
    by_cases h : k' = k
    · simpa [removeA, List.filter, h] using ih
    · simpa [removeA, List.filter, h, lookupA] using ih

/-- The three module-level presence dictionaries of server.py.  The live
socket objects are modelled as numeric connection handles. -/
structure Presence where
  connected_drivers : List (String × Nat)
  connected_passengers : List (String × Nat)
  driver_status : List (String × String)
deriving Repr, DecidableEq

/-! ## Matcher (db_api.get_available_drivers,
server.get_matched_available_drivers) -/

/-- One row of the users table, restricted to the columns the matcher and the
handlers read.  The `weekly_schedule` JSON object is modelled as its
key/value pairs in iteration order. -/
structure UserRow where
  username : String
  role : String
  area : String
  weekly_schedule : List (String × String)
deriving Repr, DecidableEq

/-- The inner loop of db_api.get_available_drivers over one driver's
schedule: for each entry whose weekday name maps to the requested weekday
and whose time parses into the window, the username is appended once; a
`KeyError` from an invalid weekday name propagates (modelled as
`Except.error`); a time-parse failure is swallowed by the inner try. -/
def scheduleHits (weekday : Int) (lower upper : Int) :
    List (String × String) → Except String Nat
  | [] => .ok 0
  | (day, timestr) :: rest =>
    match weekday_to_int day with
    | none => .error ("KeyError: " ++ day)
    | some w =>
      match scheduleHits weekday lower upper rest with
      | .error e => .error e
      | .ok n =>
        if w = weekday then
          match time_to_seconds timestr with
          | .error _ => .ok n
          | .ok sec => if lower ≤ sec ∧ sec ≤ upper then .ok (n + 1) else .ok n
        else .ok n

/-- The driver loop of db_api.get_available_drivers. -/
def availableDriversGo (weekday : Int) (lower upper : Int) :
    List UserRow → Except String (List String)
  | [] => .ok []
  | u :: rest =>
    match scheduleHits weekday lower upper u.weekly_schedule with
    | .error e => .error e
    | .ok n =>
      match availableDriversGo weekday lower upper rest with
      | .error e => .error e
      | .ok tail => .ok (List.replicate n u.username ++ tail)

/-- db_api.get_available_drivers: drivers of the area whose weekly schedule
has an entry for the weekday parsing into the ±10-minute window (clamped to
the day), appended once per matching entry. -/
def get_available_drivers (users : List UserRow) (area : String) (weekday : Int)
    (target_seconds : Int) : Except String (List String) :=
  let drivers := users.filter (fun u => u.role = "driver" ∧ u.area = area)
  let lower := max 0 (target_seconds - 600)
  let upper := min 86399 (target_seconds + 600)
  availableDriversGo weekday lower upper drivers

/-- server._is_driver_available_online: connected and with status
"available" (an absent status entry defaults to "available"). -/
def is_driver_available_online (st : Presence) (username : String) : Bool :=
  match lookupA st.connected_drivers username with
  | none => false
  | some _ => ((lookupA st.driver_status username).getD "available") = "available"

/-- server.get_matched_available_drivers.  The optional `target_driver`
(Python `None` or a string) is modelled as a `String`, with `""` standing
for an absent/falsy value exactly as Python truthiness treats it. -/
def get_matched_available_drivers (st : Presence) (users : List UserRow)
    (area : String) (weekday : Int) (target_seconds : Int)
    (target_driver : String) (preferred_only : Bool) :
    Except String (List String) :=
  match get_available_drivers users area weekday target_seconds with
  | .error e => .error e
  | .ok matched =>
    if preferred_only ∧ target_driver ≠ "" then
      if target_driver ∈ matched ∧ is_driver_available_online st target_driver then
        .ok [target_driver]
      else
        .ok []
    else if target_driver ≠ "" ∧ target_driver ∈ matched ∧
        is_driver_available_online st target_driver then
      .ok [target_driver]
    else
      .ok (matched.filter (fun u => is_driver_available_online st u))

/-- A driver in area Hamra scheduled Mondays at 08:00, online. -/
def users1 : List UserRow :=
  [⟨"d1", "driver", "Hamra", [("Monday", "08:00")]⟩]

/-- Presence with that driver connected and no explicit status. -/
def presence1 : Presence :=
  ⟨[("d1", 1)], [], []⟩

/-- C1: the matcher behaves as the two-tier contract.  Relative to the
schedule-candidate list `cand` (the successful result of
get_available_drivers): with `preferred_only` set and a preferred driver
given, the result is `[target_driver]` when the preferred driver is a
candidate and online+available and `[]` otherwise; with `preferred_only`
unset and a preferred driver given that is a candidate and
online+available, the result is `[target_driver]`; in every other case the
result is exactly (as a set) the candidates that are online and available;
the result is always an ok list, never an error. -/
theorem matcher_two_tier (st : Presence) (users : List UserRow) (area : String)
    (weekday target_seconds : Int) (target_driver : String)
    (preferred_only : Bool) (cand : List String)
    (h : get_available_drivers users area weekday target_seconds = .ok cand) :
    (preferred_only = true → target_driver ≠ "" →
      get_matched_available_drivers st users area weekday target_seconds
          target_driver preferred_only =
        .ok (if target_driver ∈ cand ∧ is_driver_available_online st target_driver
          then [target_driver] else [])) ∧
    (preferred_only = false → target_driver ≠ "" → target_driver ∈ cand →
      is_driver_available_online st target_driver = true →
      get_matched_available_drivers st users area weekday target_seconds
          target_driver preferred_only = .ok [target_driver]) ∧
    ((preferred_only = false ∧ (target_driver = "" ∨ target_driver ∉ cand ∨
        is_driver_available_online st target_driver = false)) ∨
      (preferred_only = true ∧ target_driver = "") →
      ∃ res, get_matched_available_drivers st users area weekday target_seconds
          target_driver preferred_only = .ok res ∧
        ∀ u, u ∈ res ↔ u ∈ cand ∧ is_driver_available_online st u = true) := by
  have hg : get_matched_available_drivers st users area weekday target_seconds
      target_driver preferred_only =
      (if preferred_only ∧ target_driver ≠ "" then
        (if target_driver ∈ cand ∧ is_driver_available_online st target_driver then
          Except.ok [target_driver]
        else Except.ok [])
      else if target_driver ≠ "" ∧ target_driver ∈ cand ∧
          is_driver_available_online st target_driver then
        Except.ok [target_driver]
      else Except.ok (cand.filter (fun u => is_driver_available_online st u))) := by
    unfold get_matched_available_drivers
    simp only [h]
  refine ⟨?_, ?_, ?_⟩
  · intro hpo hne
    rw [hg, if_pos ⟨hpo, hne⟩]
    by_cases hc : target_driver ∈ cand ∧ is_driver_available_online st target_driver
    · rw [if_pos hc, if_pos hc]
    · rw [if_neg hc, if_neg hc]
  · intro hpo hne hmem hav
    rw [hg, if_neg (fun hb => by rw [hpo] at hb; exact Bool.false_ne_true hb.1),
      if_pos ⟨hne, hmem, hav⟩]
  · intro hcase
    refine ⟨cand.filter (fun u => is_driver_available_online st u), ?_, ?_⟩
    · rcases hcase with ⟨hpo, hrest⟩ | ⟨hpo, hemp⟩
      · rw [hg, if_neg (fun hb => by rw [hpo] at hb; exact Bool.false_ne_true hb.1),
          if_neg]
        rintro ⟨hne, hmem, hav⟩
        rcases hrest with he | hnm | hnav
        · exact hne he
        · exact hnm hmem
        · rw [hav] at hnav; exact absurd hnav (by simp)
      · rw [hg, if_neg (fun hb => hb.2 hemp), if_neg (fun hb => hb.1 hemp)]
    · intro u
      simp [List.mem_filter]

/-- Witness for C1: the strict branch at a concrete state returns exactly
the preferred driver. -/
theorem matcher_two_tier_witness :
    get_available_drivers users1 "Hamra" 0 28800 = Except.ok ["d1"] ∧
      get_matched_available_drivers presence1 users1 "Hamra" 0 28800 "d1" true =
        Except.ok ["d1"] := by
  constructor
  · rfl
  · have h := (matcher_two_tier presence1 users1 "Hamra" 0 28800 "d1" true ["d1"]
      rfl).1 rfl (by decide)
    rw [h, if_pos ⟨by decide, by decide⟩]

/-- A driver whose schedule JSON has two distinct keys that both name
Monday ("Monday" and "MONDAY", weekday_to_int is case-insensitive), with
both times inside the match window of 08:00. -/
def dupSchedUsers : List UserRow :=
  [⟨"d1", "driver", "Hamra", [("Monday", "08:00"), ("MONDAY", "08:05")]⟩]

/-- Presence with that driver connected and available. -/
def dupSchedPresence : Presence :=
  ⟨[("d1", 7)], [], [("d1", "available")]⟩

/-- C7 counterexample: with duplicate weekday keys both matching, the
matcher returns the same username twice, so its output does not contain
each username at most once. -/
theorem matcher_duplicates_counterexample :
    get_matched_available_drivers dupSchedPresence dupSchedUsers "Hamra" 0 28800
        "" false = Except.ok ["d1", "d1"] ∧
      ¬ List.Nodup ["d1", "d1"] :=
  ⟨rfl, by decide⟩

/-- C7 amended: each username occurs in the matcher's output at most as
often as it occurs among the schedule candidates — once per matching
schedule entry — so the output is duplicate-free whenever the candidate
list is, but duplicate weekday keys that both match produce a duplicated
username (no deduplication is applied before returning). -/
theorem matcher_count_le_candidates (st : Presence) (users : List UserRow)
    (area : String) (weekday target_seconds : Int) (target_driver : String)
    (preferred_only : Bool) (cand : List String)
    (h : get_available_drivers users area weekday target_seconds = .ok cand) :
    ∃ res, get_matched_available_drivers st users area weekday target_seconds
        target_driver preferred_only = .ok res ∧
      (∀ u, res.count u ≤ cand.count u) ∧
      (cand.Nodup → res.Nodup) := by
  have hg : get_matched_available_drivers st users area weekday target_seconds
      target_driver preferred_only =
      (if preferred_only ∧ target_driver ≠ "" then
        (if target_driver ∈ cand ∧ is_driver_available_online st target_driver then
          Except.ok [target_driver]
        else Except.ok [])
      else if target_driver ≠ "" ∧ target_driver ∈ cand ∧
          is_driver_available_online st target_driver then
        Except.ok [target_driver]
      else Except.ok (cand.filter (fun u => is_driver_available_online st u))) := by
    unfold get_matched_available_drivers
    simp only [h]
  have hsingle : ∀ td : String, td ∈ cand →
      (∀ u, List.count u [td] ≤ cand.count u) ∧ (cand.Nodup → List.Nodup [td]) := by
    intro td hmem
    refine ⟨fun u => ?_, fun _ => by simp⟩
    by_cases hu : u = td
    · subst hu
      have : 0 < cand.count u := List.count_pos_iff.mpr hmem
      simpa using this
    · simp [List.count_cons, hu]
  rw [hg]
  split_ifs with h1 h2 h3
  · exact ⟨[target_driver], rfl, (hsingle target_driver h2.1).1,
      (hsingle target_driver h2.1).2⟩
  · exact ⟨[], rfl, fun u => by simp, fun _ => by simp⟩
  · exact ⟨[target_driver], rfl, (hsingle target_driver h3.2.1).1,
      (hsingle target_driver h3.2.1).2⟩
  · refine ⟨cand.filter (fun u => is_driver_available_online st u), rfl, fun u => ?_,
      fun hnd => hnd.filter _⟩
    exact (List.filter_sublist cand).count_le u

/-- Witness for C7's amended theorem at the duplicate-schedule state. -/
theorem matcher_count_le_candidates_witness :
    get_available_drivers dupSchedUsers "Hamra" 0 28800 = Except.ok ["d1", "d1"] ∧
      ∃ res, get_matched_available_drivers dupSchedPresence dupSchedUsers "Hamra" 0
          28800 "" false = Except.ok res ∧
        (∀ u, res.count u ≤ List.count u ["d1", "d1"]) ∧
        (List.Nodup ["d1", "d1"] → res.Nodup) :=
  ⟨rfl, matcher_count_le_candidates dupSchedPresence dupSchedUsers "Hamra" 0 28800
    "" false ["d1", "d1"] rfl⟩

/-! ## Rides table (db_api: create_ride_request, accept_ride, decline_ride,
complete_ride) -/

/-- One row of the rides table. -/
structure Ride where
  id : Nat
  passenger_username : String
  area : String
  time : Int
  weekday : Int
  status : String
  driver_username : Option String
  driver_ip : Option String
  driver_port : Option Int
deriving Repr, DecidableEq

/-- A JSON response object: its `status` field, its `message` field and the
`ride_id` field when one is present. -/
structure Resp where
  status : String
  message : String
  ride_id : Option Nat
deriving Repr, DecidableEq

def errResp (m : String) : Resp := ⟨"error", m, none⟩

def okResp (m : String) : Resp := ⟨"success", m, none⟩

/-- db_api.create_ride_request: parse the time (an exception propagates,
the call is outside the try block), then insert one pending row with null
driver fields; `lastrowid` is modelled by the next free id. -/
def create_ride_request (rides : List Ride) (next_id : Nat)
    (passenger_username area time_str : String) (weekday : Int) :
    Except String (Resp × List Ride × Nat) :=
  match time_to_seconds time_str with
  | .error e => .error e
  | .ok time_sec =>
    .ok (⟨"success", "Ride request created successfully", some next_id⟩,
      rides ++ [⟨next_id, passenger_username, area, time_sec, weekday, "pending",
        none, none, none⟩],
      next_id + 1)

/-- db_api.accept_ride: `UPDATE rides SET status='accepted',
driver_username=?, driver_ip=?, driver_port=? WHERE id=? AND
status='pending'`; the boolean is `rowcount > 0`. -/
def accept_ride (rides : List Ride) (ride_id : Nat) (driver_username : String)
    (ip : Option String) (port : Option Int) : List Ride × Bool :=
  (rides.map (fun r =>
      if r.id = ride_id ∧ r.status = "pending" then
        { r with
          status := "accepted"
          driver_username := some driver_username
          driver_ip := ip
          driver_port := port }
      else r),
    decide (0 < rides.countP (fun r => decide (r.id = ride_id ∧ r.status = "pending"))))

/-- db_api.decline_ride: `UPDATE rides SET status='declined' WHERE id=? AND
status='pending'`. -/
def decline_ride (rides : List Ride) (ride_id : Nat) : List Ride × Bool :=
  (rides.map (fun r =>
      if r.id = ride_id ∧ r.status = "pending" then { r with status := "declined" }
      else r),
    decide (0 < rides.countP (fun r => decide (r.id = ride_id ∧ r.status = "pending"))))

/-- db_api.complete_ride: `UPDATE rides SET status='completed' WHERE id=?
AND status='accepted' AND driver_username=?` (a NULL driver_username never
compares equal in SQL, hence `some`). -/
def complete_ride (rides : List Ride) (ride_id : Nat) (driver_username : String) :
    List Ride × Bool :=
  (rides.map (fun r =>
      if r.id = ride_id ∧ r.status = "accepted" ∧
          r.driver_username = some driver_username then
        { r with status := "completed" }
      else r),
    decide (0 < rides.countP (fun r => decide (r.id = ride_id ∧ r.status = "accepted" ∧
      r.driver_username = some driver_username))))

/-- The accept_ride branch of server.handle_client, restricted to the
response and the rides table (the push notification does not modify
either). -/
def handle_accept_ride (rides : List Ride) (ride_id : Nat)
    (driver_username : String) (ip : Option String) (port : Option Int) :
    Resp × List Ride :=
  let p := accept_ride rides ride_id driver_username ip port
  if p.2 then (okResp "Ride accepted.", p.1)
  else (errResp "Ride already taken or invalid.", p.1)

/-- The complete_ride branch of server.handle_client, restricted to the
response and the rides table. -/
def handle_complete_ride (rides : List Ride) (ride_id : Nat)
    (driver_username : String) : Resp × List Ride :=
  let p := complete_ride rides ride_id driver_username
  if p.2 then (okResp "Ride completed.", p.1)
  else (errResp "Ride not found or cannot be completed.", p.1)

/-- If no element of the list satisfies the predicate, a conditional
rewrite maps the list to itself. -/
theorem map_ite_eq_self {α : Type} (p : α → Prop) [DecidablePred p] (f : α → α)
    (l : List α) (h : ∀ x ∈ l, ¬ p x) :
    l.map (fun x => if p x then f x else x) = l := by
  induction l with
  | nil => rfl
  | cons a t ih =>
    simp only [List.map_cons, List.cons.injEq]
    constructor
    · rw [if_neg (h a (by simp))]
    · exact ih (fun x hx => h x (by simp [hx]))

/-- C3: accept_ride succeeds (the handler answers "success") precisely when
a ride with the given id exists with status pending; on success that row
becomes accepted with the caller's driver_username/driver_ip/driver_port
and every other row is untouched; on failure the handler answers "error"
and the table is unchanged. -/
theorem accept_ride_pending_guard (rides : List Ride) (ride_id : Nat)
    (driver_username : String) (ip : Option String) (port : Option Int) :
    ((handle_accept_ride rides ride_id driver_username ip port).1.status = "success" ↔
      ∃ r ∈ rides, r.id = ride_id ∧ r.status = "pending") ∧
    ((handle_accept_ride rides ride_id driver_username ip port).1.status ≠ "success" →
      (handle_accept_ride rides ride_id driver_username ip port).1.status = "error") ∧
    ((accept_ride rides ride_id driver_username ip port).2 = false →
      (accept_ride rides ride_id driver_username ip port).1 = rides) ∧
    ((handle_accept_ride rides ride_id driver_username ip port).2 =
      (accept_ride rides ride_id driver_username ip port).1) ∧
    (∀ r ∈ rides, r.id = ride_id → r.status = "pending" →
      { r with
        status := "accepted"
        driver_username := some driver_username
        driver_ip := ip
        driver_port := port } ∈ (accept_ride rides ride_id driver_username ip port).1) ∧
    (∀ r ∈ rides, ¬(r.id = ride_id ∧ r.status = "pending") →
      r ∈ (accept_ride rides ride_id driver_username ip port).1) := by
  have hA2 : (accept_ride rides ride_id driver_username ip port).2 = true ↔
      ∃ r ∈ rides, r.id = ride_id ∧ r.status = "pending" := by
    simp [accept_ride, List.countP_pos_iff]
  refine ⟨?_, ?_, ?_, ?_, ?_, ?_⟩
  · simp only [handle_accept_ride]
    by_cases hA : (accept_ride rides ride_id driver_username ip port).2 = true
    · rw [if_pos hA]
      exact ⟨fun _ => hA2.mp hA, fun _ => rfl⟩
    · rw [if_neg hA]
      simp only [errResp]
      exact ⟨fun h => absurd h (by decide), fun hex => absurd (hA2.mpr hex) hA⟩
  · simp only [handle_accept_ride]
    by_cases hA : (accept_ride rides ride_id driver_username ip port).2 = true
    · rw [if_pos hA]
      intro h
      exact absurd rfl h
    · rw [if_neg hA]
      intro _
      rfl
  · intro hA
    have hnex : ¬ ∃ r ∈ rides, r.id = ride_id ∧ r.status = "pending" := by
      intro hex
      have hcontra := hA2.mpr hex
      rw [hA] at hcontra
      simp at hcontra
    have hnone : ∀ r ∈ rides, ¬(r.id = ride_id ∧ r.status = "pending") := by
      intro r hr hcon
      exact hnex ⟨r, hr, hcon⟩
    simp only [accept_ride]
    exact map_ite_eq_self _ _ rides hnone
  · simp only [handle_accept_ride]
    by_cases hA : (accept_ride rides ride_id driver_username ip port).2 = true
    · rw [if_pos hA]
    · rw [if_neg hA]
  · intro r hr hid hst
    simp only [accept_ride]
    exact List.mem_map.mpr ⟨r, hr, by rw [if_pos ⟨hid, hst⟩]⟩
  · intro r hr hnot
    simp only [accept_ride]
    exact List.mem_map.mpr ⟨r, hr, by rw [if_neg hnot]⟩

/-- A pending ride row for witnesses. -/
def pendingRide : Ride := ⟨1, "p1", "Hamra", 28800, 0, "pending", none, none, none⟩

/-- Witness for C3 at a one-row pending table. -/
theorem accept_ride_pending_guard_witness :
    (handle_accept_ride [pendingRide] 1 "d1" (some "10.0.0.1") (some 9100)).1.status =
      "success" :=
  (accept_ride_pending_guard [pendingRide] 1 "d1" (some "10.0.0.1") (some 9100)).1.mpr
    ⟨pendingRide, by simp, rfl, rfl⟩

/-- C4: complete_ride succeeds (the handler answers "success") precisely
when the ride exists with status exactly "accepted" and the caller's
username equals the ride's driver_username; on success that row's status
becomes "completed" and every other row is untouched; in every other case
the handler answers "error" and the table is unchanged. -/
theorem complete_ride_guard (rides : List Ride) (ride_id : Nat)
    (driver_username : String) :
    ((handle_complete_ride rides ride_id driver_username).1.status = "success" ↔
      ∃ r ∈ rides, r.id = ride_id ∧ r.status = "accepted" ∧
        r.driver_username = some driver_username) ∧
    ((handle_complete_ride rides ride_id driver_username).1.status ≠ "success" →
      (handle_complete_ride rides ride_id driver_username).1.status = "error") ∧
    ((complete_ride rides ride_id driver_username).2 = false →
      (complete_ride rides ride_id driver_username).1 = rides) ∧
    ((handle_complete_ride rides ride_id driver_username).2 =
      (complete_ride rides ride_id driver_username).1) ∧
    (∀ r ∈ rides, r.id = ride_id → r.status = "accepted" →
      r.driver_username = some driver_username →
      { r with status := "completed" } ∈ (complete_ride rides ride_id driver_username).1) ∧
    (∀ r ∈ rides, ¬(r.id = ride_id ∧ r.status = "accepted" ∧
        r.driver_username = some driver_username) →
      r ∈ (complete_ride rides ride_id driver_username).1) := by
  have hA2 : (complete_ride rides ride_id driver_username).2 = true ↔
      ∃ r ∈ rides, r.id = ride_id ∧ r.status = "accepted" ∧
        r.driver_username = some driver_username := by
    simp [complete_ride, List.countP_pos_iff]
  refine ⟨?_, ?_, ?_, ?_, ?_, ?_⟩
  · simp only [handle_complete_ride]
    by_cases hA : (complete_ride rides ride_id driver_username).2 = true
    · rw [if_pos hA]
      exact ⟨fun _ => hA2.mp hA, fun _ => rfl⟩
    · rw [if_neg hA]
      simp only [errResp]
      exact ⟨fun h => absurd h (by decide), fun hex => absurd (hA2.mpr hex) hA⟩
  · simp only [handle_complete_ride]
    by_cases hA : (complete_ride rides ride_id driver_username).2 = true
    · rw [if_pos hA]
      intro h
      exact absurd rfl h
    · rw [if_neg hA]
      intro _
      rfl
  · intro hA
    have hnex : ¬ ∃ r ∈ rides, r.id = ride_id ∧ r.status = "accepted" ∧
        r.driver_username = some driver_username := by
      intro hex
      have hcontra := hA2.mpr hex
      rw [hA] at hcontra
      simp at hcontra
    have hnone : ∀ r ∈ rides, ¬(r.id = ride_id ∧ r.status = "accepted" ∧
        r.driver_username = some driver_username) := by
      intro r hr hcon
      exact hnex ⟨r, hr, hcon⟩
    simp only [complete_ride]
    exact map_ite_eq_self _ _ rides hnone
  · simp only [handle_complete_ride]
    by_cases hA : (complete_ride rides ride_id driver_username).2 = true
    · rw [if_pos hA]
    · rw [if_neg hA]
  · intro r hr hid hst hdrv
    simp only [complete_ride]
    exact List.mem_map.mpr ⟨r, hr, by rw [if_pos ⟨hid, hst, hdrv⟩]⟩
  · intro r hr hnot
    simp only [complete_ride]
    exact List.mem_map.mpr ⟨r, hr, by rw [if_neg hnot]⟩

/-- An accepted ride row (with its driver set) for witnesses. -/
def acceptedRide : Ride :=
  ⟨1, "p1", "Hamra", 28800, 0, "accepted", some "d1", some "10.0.0.1", some 9100⟩

/-- Witness for C4: the matching driver completes an accepted ride. -/
theorem complete_ride_guard_witness :
    (handle_complete_ride [acceptedRide] 1 "d1").1.status = "success" :=
  (complete_ride_guard [acceptedRide] 1 "d1").1.mpr
    ⟨acceptedRide, by simp, rfl, rfl, rfl⟩

/-! ## create_ride (server.handle_client, action "create_ride") -/

/-- The state a create_ride request reads and writes: the users table, the
rides table with the next free row id, and the presence registry. -/
structure ServerState where
  users : List UserRow
  rides : List Ride
  next_ride_id : Nat
  presence : Presence
deriving Repr, DecidableEq

/-- The create_ride branch of server.handle_client: parse the time (on
failure answer an error and change nothing); run the matcher; if no driver
is matched answer an error and do not touch the rides table; otherwise
persist one pending ride via create_ride_request and answer its response
(the ride id).  The fire-and-forget notification thread touches neither
response nor tables.  An exception escaping the handler (a malformed
weekday key reached by the matcher) is `Except.error`. -/
def handle_create_ride (st : ServerState) (passenger_username area time_str : String)
    (weekday : Int) (target_driver : String) (preferred_only : Bool) :
    Except String (Resp × ServerState) :=
  match time_to_seconds time_str with
  | .error e => .ok (errResp ("Invalid time format: " ++ e), st)
  | .ok time_sec =>
    match get_matched_available_drivers st.presence st.users area weekday time_sec
        target_driver preferred_only with
    | .error e => .error e
    | .ok available_drivers =>
      if available_drivers = [] then
        .ok (errResp "No drivers are currently available for that time in your area.",
          st)
      else
        match create_ride_request st.rides st.next_ride_id passenger_username area
            time_str weekday with
        | .error e => .error e
        | .ok (resp, rides2, nid2) =>
          .ok (resp, { st with rides := rides2, next_ride_id := nid2 })

/-- C2: when the matched set of online+available drivers is empty,
create_ride answers an error and the rides table is unchanged; when it is
non-empty, exactly one new pending ride row is appended and the response
carries its id — matching runs before persisting. -/
theorem create_ride_match_before_persist (st : ServerState)
    (passenger_username area time_str : String) (weekday : Int)
    (target_driver : String) (preferred_only : Bool) (time_sec : Int)
    (cand : List String)
    (ht : time_to_seconds time_str = .ok time_sec)
    (hm : get_matched_available_drivers st.presence st.users area weekday time_sec
      target_driver preferred_only = .ok cand) :
    ∃ resp st', handle_create_ride st passenger_username area time_str weekday
        target_driver preferred_only = .ok (resp, st') ∧
      (cand = [] → resp.status = "error" ∧ st'.rides = st.rides) ∧
      (cand ≠ [] → resp.status = "success" ∧ resp.ride_id = some st.next_ride_id ∧
        st'.rides = st.rides ++ [⟨st.next_ride_id, passenger_username, area, time_sec,
          weekday, "pending", none, none, none⟩]) := by
  simp only [handle_create_ride, ht, hm]
  by_cases hc : cand = []
  · rw [if_pos hc]
    refine ⟨_, st, rfl, fun _ => ⟨rfl, rfl⟩, fun hne => absurd hc hne⟩
  · rw [if_neg hc]
    simp only [create_ride_request, ht]
    refine ⟨_, _, rfl, fun h => absurd h hc, fun _ => ⟨rfl, rfl, rfl⟩⟩

/-- Witness for C2: with one online matching driver the request persists a
pending row with the fresh id; the hypotheses hold at this concrete
state by evaluation. -/
theorem create_ride_match_before_persist_witness :
    ∃ resp st', handle_create_ride ⟨users1, [], 1, presence1⟩ "p1" "Hamra" "08:00" 0
        "" false = .ok (resp, st') ∧
      (["d1"] = [] → resp.status = "error" ∧ st'.rides = []) ∧
      (["d1"] ≠ [] → resp.status = "success" ∧ resp.ride_id = some 1 ∧
        st'.rides = [] ++ [⟨1, "p1", "Hamra", 28800, 0, "pending", none, none, none⟩]) :=
  create_ride_match_before_persist ⟨users1, [], 1, presence1⟩ "p1" "Hamra" "08:00" 0
    "" false 28800 ["d1"] rfl rfl

/-! ## Reachable rides states (C6) -/

/-- The four ride operations of db_api as transitions on the rides table. -/
inductive RideOp where
  | create (passenger_username area time_str : String) (weekday : Int)
  | accept (ride_id : Nat) (driver_username : String)
      (ip : Option String) (port : Option Int)
  | decline (ride_id : Nat)
  | complete (ride_id : Nat) (driver_username : String)
deriving Repr, DecidableEq

/-- Apply one ride operation to (rides table, next row id); a raising
create (invalid time) leaves the table unchanged. -/
def applyOp (acc : List Ride × Nat) (op : RideOp) : List Ride × Nat :=
  match op with
  | .create p a t wd =>
    match create_ride_request acc.1 acc.2 p a t wd with
    | .error _ => acc
    | .ok (_, rides2, nid2) => (rides2, nid2)
  | .accept rid d ip port => ((accept_ride acc.1 rid d ip port).1, acc.2)
  | .decline rid => ((decline_ride acc.1 rid).1, acc.2)
  | .complete rid d => ((complete_ride acc.1 rid d).1, acc.2)

/-- Run a sequence of ride operations from the empty table. -/
def runOps (ops : List RideOp) : List Ride × Nat :=
  ops.foldl applyOp ([], 1)

/-- The invariant exactly as the claim states it: all three driver fields
are set precisely on the accepted/completed statuses (executable form). -/
def driverFieldsIffStatus (rides : List Ride) : Bool :=
  rides.all (fun r =>
    (r.driver_username.isSome && r.driver_ip.isSome && r.driver_port.isSome) ==
      (r.status == "accepted" || r.status == "completed"))

/-- C6 counterexample: create then accept with no ip/port supplied (the
server passes `data.get("driver_ip")`, which may be absent) yields an
accepted ride whose driver_ip/driver_port are still null, so the claimed
equivalence fails in a reachable state. -/
theorem driver_fields_iff_status_counterexample :
    (runOps [RideOp.create "p1" "Hamra" "08:00" 0,
        RideOp.accept 1 "d1" none none]).1 =
      [⟨1, "p1", "Hamra", 28800, 0, "accepted", some "d1", none, none⟩] ∧
    driverFieldsIffStatus (runOps [RideOp.create "p1" "Hamra" "08:00" 0,
        RideOp.accept 1 "d1" none none]).1 = false :=
  ⟨rfl, rfl⟩

/-- The amended invariant: driver_username is set exactly on the
accepted/completed statuses, and driver_ip/driver_port are still null on
the pending/declined statuses (on accept they take whatever optional
values the caller supplied). -/
def DriverFieldInv (rides : List Ride) : Prop :=
  ∀ r ∈ rides,
    (r.driver_username.isSome = true ↔ (r.status = "accepted" ∨ r.status = "completed")) ∧
    ((r.status = "pending" ∨ r.status = "declined") →
      r.driver_ip = none ∧ r.driver_port = none)

theorem applyOp_preserves_inv (acc : List Ride × Nat) (op : RideOp)
    (h : DriverFieldInv acc.1) : DriverFieldInv (applyOp acc op).1 := by
  cases op with
  | create p a t wd =>
    simp only [applyOp]
    cases ht : time_to_seconds t with
    | error e => simpa [create_ride_request, ht] using h
    | ok ts =>
      simp only [create_ride_request, ht]
      intro r hr
      rcases List.mem_append.mp hr with hin | hnew
      · exact h r hin
      · rw [List.mem_singleton] at hnew
        subst hnew
        refine ⟨by simp, fun _ => ⟨rfl, rfl⟩⟩
  | accept rid d ip port =>
    simp only [applyOp, accept_ride]
    intro r' hr'
    obtain ⟨r, hr, heq⟩ := List.mem_map.mp hr'
    by_cases hc : r.id = rid ∧ r.status = "pending"
    · rw [if_pos hc] at heq
      subst heq
      exact ⟨by simp, fun hps => by rcases hps with hps | hps <;> simp at hps⟩
    · rw [if_neg hc] at heq
      subst heq
      exact h r hr
  | decline rid =>
    simp only [applyOp, decline_ride]
    intro r' hr'
    obtain ⟨r, hr, heq⟩ := List.mem_map.mp hr'
    by_cases hc : r.id = rid ∧ r.status = "pending"
    · rw [if_pos hc] at heq
      subst heq
      have hdrv := (h r hr).1
      have hip := (h r hr).2 (Or.inl hc.2)
      rw [hc.2] at hdrv
      constructor
      · simpa using hdrv
      · intro _
        exact hip
    · rw [if_neg hc] at heq
      subst heq
      exact h r hr
  | complete rid d =>
    simp only [applyOp, complete_ride]
    intro r' hr'
    obtain ⟨r, hr, heq⟩ := List.mem_map.mp hr'
    by_cases hc : r.id = rid ∧ r.status = "accepted" ∧ r.driver_username = some d
    · rw [if_pos hc] at heq
      subst heq
      refine ⟨by simp [hc.2.2], fun hps => ?_⟩
      rcases hps with hps | hps <;> simp at hps
    · rw [if_neg hc] at heq
      subst heq
      exact h r hr

theorem foldl_applyOp_preserves_inv (ops : List RideOp) (acc : List Ride × Nat)
    (h : DriverFieldInv acc.1) : DriverFieldInv (ops.foldl applyOp acc).1 := by
  induction ops generalizing acc with
  | nil => exact h
  | cons op rest ih =>
    exact ih (applyOp acc op) (applyOp_preserves_inv acc op h)

/-- C6 amended: in every state reachable from the empty table through the
four ride operations, a row's driver_username is set iff its status is in
the accepted/completed statuses, and its driver_ip/driver_port are null
while its status is pending or declined. -/
theorem reachable_driver_field_inv (ops : List RideOp) :
    DriverFieldInv (runOps ops).1 :=
  foldl_applyOp_preserves_inv ops ([], 1) (by intro r hr; simp at hr)

/-- Witness for C6's amended invariant on a concrete run reaching a
completed ride. -/
theorem reachable_driver_field_inv_witness :
    DriverFieldInv (runOps [RideOp.create "p1" "Hamra" "08:00" 0,
      RideOp.accept 1 "d1" (some "10.0.0.1") (some 9100),
      RideOp.complete 1 "d1"]).1 :=
  reachable_driver_field_inv [RideOp.create "p1" "Hamra" "08:00" 0,
    RideOp.accept 1 "d1" (some "10.0.0.1") (some 9100),
    RideOp.complete 1 "d1"]

/-! ## Scheduled rides (db_api.get_scheduled_ride,
update_scheduled_ride_status; server driver_accept_scheduled_ride /
driver_decline_scheduled_ride) -/

/-- One row of the scheduled_rides table. -/
structure SRide where
  id : Nat
  passenger_username : String
  driver_username : String
  area : String
  date : String
  time : Int
  weekday : Int
  status : String
deriving Repr, DecidableEq

/-- db_api.get_scheduled_ride: the row with the given id, or none. -/
def get_scheduled_ride (rows : List SRide) (ride_id : Nat) : Option SRide :=
  rows.find? (fun r => r.id == ride_id)

/-- db_api.update_scheduled_ride_status: `UPDATE scheduled_rides SET
status=? WHERE id=?` — no condition on the current status; the boolean is
`rowcount > 0`. -/
def update_scheduled_ride_status (rows : List SRide) (ride_id : Nat)
    (status : String) : List SRide × Bool :=
  (rows.map (fun r => if r.id = ride_id then { r with status := status } else r),
    decide (0 < rows.countP (fun r => decide (r.id = ride_id))))

/-- The driver_accept_scheduled_ride branch of server.handle_client,
restricted to the response and the scheduled_rides table. -/
def driver_accept_scheduled_ride (rows : List SRide) (ride_id : Nat)
    (driver_username : String) : Resp × List SRide :=
  match get_scheduled_ride rows ride_id with
  | none => (errResp "Scheduled ride not found.", rows)
  | some ride =>
    if ride.driver_username ≠ driver_username then
      (errResp "You are not the driver for this ride.", rows)
    else
      let p := update_scheduled_ride_status rows ride_id "accepted"
      if p.2 then (okResp "Scheduled ride accepted.", p.1)
      else (errResp "Could not update scheduled ride.", p.1)

/-- The driver_decline_scheduled_ride branch of server.handle_client,
restricted to the response and the scheduled_rides table. -/
def driver_decline_scheduled_ride (rows : List SRide) (ride_id : Nat)
    (driver_username : String) : Resp × List SRide :=
  match get_scheduled_ride rows ride_id with
  | none => (errResp "Scheduled ride not found.", rows)
  | some ride =>
    if ride.driver_username ≠ driver_username then
      (errResp "You are not the driver for this ride.", rows)
    else
      let p := update_scheduled_ride_status rows ride_id "declined"
      if p.2 then (okResp "Scheduled ride declined.", p.1)
      else (errResp "Could not update scheduled ride.", p.1)

/-- A scheduled ride already canceled. -/
def canceledSRide : SRide := ⟨1, "p1", "d1", "Hamra", "2025-01-06", 28800, 0, "canceled"⟩

/-- C5 counterexample: the assigned driver accepts a scheduled ride whose
current status is "canceled" (not "scheduled") and the handler answers
"success" and overwrites the status — the handler never checks that the
ride is currently "scheduled". -/
theorem scheduled_accept_any_status_counterexample :
    canceledSRide.status = "canceled" ∧
    (driver_accept_scheduled_ride [canceledSRide] 1 "d1").1.status = "success" ∧
    (driver_accept_scheduled_ride [canceledSRide] 1 "d1").2 =
      [⟨1, "p1", "d1", "Hamra", "2025-01-06", 28800, 0, "accepted"⟩] :=
  ⟨rfl, rfl, rfl⟩

/-- C5 amended: driver_accept_scheduled_ride and
driver_decline_scheduled_ride succeed precisely when the ride exists and
the caller is its assigned driver, regardless of the ride's current status
(no check that it is "scheduled"); on success the status is overwritten to
accepted/declined; on failure (missing ride or wrong driver) the handler
answers an error and the table is unchanged. -/
theorem scheduled_update_guard (rows : List SRide) (ride_id : Nat) (u : String) :
    (get_scheduled_ride rows ride_id = none →
      driver_accept_scheduled_ride rows ride_id u =
        (errResp "Scheduled ride not found.", rows) ∧
      driver_decline_scheduled_ride rows ride_id u =
        (errResp "Scheduled ride not found.", rows)) ∧
    (∀ ride, get_scheduled_ride rows ride_id = some ride →
      ride.driver_username ≠ u →
      driver_accept_scheduled_ride rows ride_id u =
        (errResp "You are not the driver for this ride.", rows) ∧
      driver_decline_scheduled_ride rows ride_id u =
        (errResp "You are not the driver for this ride.", rows)) ∧
    (∀ ride, get_scheduled_ride rows ride_id = some ride →
      ride.driver_username = u →
      (driver_accept_scheduled_ride rows ride_id u).1.status = "success" ∧
      (driver_accept_scheduled_ride rows ride_id u).2 =
        rows.map (fun r => if r.id = ride_id then { r with status := "accepted" }
          else r) ∧
      (driver_decline_scheduled_ride rows ride_id u).1.status = "success" ∧
      (driver_decline_scheduled_ride rows ride_id u).2 =
        rows.map (fun r => if r.id = ride_id then { r with status := "declined" }
          else r)) := by
  refine ⟨?_, ?_, ?_⟩
  · intro hn
    constructor
    · simp only [driver_accept_scheduled_ride, hn]
    · simp only [driver_decline_scheduled_ride, hn]
  · intro ride hs hne
    constructor
    · simp only [driver_accept_scheduled_ride, hs]
      rw [if_pos hne]
    · simp only [driver_decline_scheduled_ride, hs]
      rw [if_pos hne]
  · intro ride hs heq
    have hmem : ride ∈ rows := List.mem_of_find?_eq_some hs
    have hid : ride.id = ride_id := by
      have := List.find?_some hs
      simpa using this
    have hok : (update_scheduled_ride_status rows ride_id "accepted").2 = true := by
      simp only [update_scheduled_ride_status, decide_eq_true_eq, List.countP_pos_iff]
      exact ⟨ride, hmem, by simpa using hid⟩
    have hok2 : (update_scheduled_ride_status rows ride_id "declined").2 = true := by
      simp only [update_scheduled_ride_status, decide_eq_true_eq, List.countP_pos_iff]
      exact ⟨ride, hmem, by simpa using hid⟩
    refine ⟨?_, ?_, ?_, ?_⟩
    · simp only [driver_accept_scheduled_ride, hs]
      rw [if_neg (by simp [heq]), if_pos hok]
      rfl
    · simp only [driver_accept_scheduled_ride, hs]
      rw [if_neg (by simp [heq]), if_pos hok]
      rfl
    · simp only [driver_decline_scheduled_ride, hs]
      rw [if_neg (by simp [heq]), if_pos hok2]
      rfl
    · simp only [driver_decline_scheduled_ride, hs]
      rw [if_neg (by simp [heq]), if_pos hok2]
      rfl

/-- A scheduled ride still in status "scheduled". -/
def scheduledSRide : SRide := ⟨2, "p1", "d1", "Hamra", "2025-01-06", 28800, 0, "scheduled"⟩

/-- Witness for C5's amended theorem: the assigned driver accepts a
scheduled ride successfully. -/
theorem scheduled_update_guard_witness :
    (driver_accept_scheduled_ride [scheduledSRide] 2 "d1").1.status = "success" :=
  ((scheduled_update_guard [scheduledSRide] 2 "d1").2.2 scheduledSRide rfl rfl).1

/-! ## Per-connection processing (server.handle_client): protocol errors and
presence-relevant actions -/

/-- The requests that touch the presence registry, plus a stand-in for
every other action (which reads but never writes presence).  A login is
modelled after its credential check already succeeded. -/
inductive Request where
  | login_driver_ok (username : String)
  | login_passenger_ok (username : String)
  | set_status (username : String) (status_value : String)
  | disconnect (username : Option String)
  | other_action
deriving Repr, DecidableEq

/-- Dispatch one parsed request (server.handle_client).  Returns the new
presence, whether the loop stays connected, and the response sent back. -/
def process_request (st : Presence) (sock : Nat) (req : Request) :
    Presence × Bool × Option Resp :=
  match req with
  | .login_driver_ok uname =>
    ({ st with
        connected_drivers := insertA st.connected_drivers uname sock
        driver_status := insertA st.driver_status uname
          ((lookupA st.driver_status uname).getD "available") },
      true, some (okResp "Login successful"))
  | .login_passenger_ok uname =>
    ({ st with connected_passengers := insertA st.connected_passengers uname sock },
      true, some (okResp "Login successful"))
  | .set_status uname status_value =>
    if uname ≠ "" ∧ (lookupA st.connected_drivers uname).isSome then
      ({ st with
          driver_status := insertA st.driver_status uname
            (if status_value = "available" ∨ status_value = "dnd" then status_value
              else "available") },
        true, some (okResp ""))
    else
      (st, true, some (errResp "Driver not connected or username missing."))
  | .disconnect u =>
    (match u with
      | some uname =>
        if uname ≠ "" then
          ⟨removeA st.connected_drivers uname, removeA st.connected_passengers uname,
            removeA st.driver_status uname⟩
        else st
      | none => st,
      false, some (okResp "Disconnected."))
  | .other_action => (st, true, some (errResp "Unknown action."))

/-- One read from the connection loop: a line that parses (dispatched), a
line on which `json.loads` raises (`line none`), a `recv` that raises
(io_error), or an empty read (peer closed).  The two exception inputs and
the empty read break the loop; the socket is then closed with no further
statement executed. -/
inductive NetInput where
  | line (parsed : Option Request)
  | io_error
  | peer_closed
deriving Repr, DecidableEq

/-- One iteration of the server.handle_client loop. -/
def connStep (st : Presence) (sock : Nat) (inp : NetInput) :
    Presence × Bool × Option Resp :=
  match inp with
  | .io_error => (st, false, none)
  | .peer_closed => (st, false, none)
  | .line none => (st, false, none)
  | .line (some req) => process_request st sock req

/-- A presence with a bound driver "alice" on socket 7. -/
def presenceAlice : Presence := ⟨[("alice", 7)], [], [("alice", "available")]⟩

/-- C8 counterexample: a malformed JSON line on alice's connection sends no
response and closes the loop, but alice is NOT removed from the presence
state — her socket entry and status survive. -/
theorem protocol_error_counterexample :
    connStep presenceAlice 7 (NetInput.line none) = (presenceAlice, false, none) ∧
      lookupA (connStep presenceAlice 7 (NetInput.line none)).1.connected_drivers
        "alice" = some 7 ∧
      lookupA (connStep presenceAlice 7 (NetInput.line none)).1.driver_status
        "alice" = some "available" :=
  ⟨rfl, rfl, rfl⟩

/-- C8 amended: a malformed JSON line or a socket I/O failure is fatal to
the connection — no response is sent and the loop ends (the socket is then
closed) — but the presence registry is left entirely unchanged: the bound
username is NOT unregistered; removal from ConnectedDrivers,
ConnectedPassengers and DriverStatus happens only through an explicit
disconnect action. -/
theorem protocol_error_fatal_no_cleanup (st : Presence) (sock : Nat) :
    connStep st sock (NetInput.line none) = (st, false, none) ∧
    connStep st sock NetInput.io_error = (st, false, none) ∧
    (∀ u, u ≠ "" →
      lookupA (connStep st sock (NetInput.line (some (Request.disconnect
        (some u))))).1.connected_drivers u = none ∧
      lookupA (connStep st sock (NetInput.line (some (Request.disconnect
        (some u))))).1.connected_passengers u = none ∧
      lookupA (connStep st sock (NetInput.line (some (Request.disconnect
        (some u))))).1.driver_status u = none) := by
  refine ⟨rfl, rfl, fun u hu => ?_⟩
  simp only [connStep, process_request, if_pos hu]
  exact ⟨lookupA_removeA_self _ u, lookupA_removeA_self _ u, lookupA_removeA_self _ u⟩

/-- Witness for C8's amended theorem at a concrete bound state. -/
theorem protocol_error_fatal_no_cleanup_witness :
    connStep presenceAlice 7 NetInput.io_error = (presenceAlice, false, none) ∧
      lookupA (connStep presenceAlice 7 (NetInput.line (some (Request.disconnect
        (some "alice"))))).1.connected_drivers "alice" = none :=
  ⟨(protocol_error_fatal_no_cleanup presenceAlice 7).2.1,
    ((protocol_error_fatal_no_cleanup presenceAlice 7).2.2 "alice" (by decide)).1⟩

/-- C10: a successful driver login binds the connection and writes
`driver_status[u] = driver_status.get(u, "available")`: an existing status
entry (for example "dnd") is preserved unchanged, and only a username with
no entry receives the default "available". -/
theorem login_preserves_driver_status (st : Presence) (sock : Nat) (u : String) :
    (∀ v, lookupA st.driver_status u = some v →
      lookupA (connStep st sock (NetInput.line (some (Request.login_driver_ok
        u)))).1.driver_status u = some v) ∧
    (lookupA st.driver_status u = none →
      lookupA (connStep st sock (NetInput.line (some (Request.login_driver_ok
        u)))).1.driver_status u = some "available") := by
  constructor
  · intro v hv
    simp only [connStep, process_request]
    rw [lookupA_insertA_self, hv]
    rfl
  · intro hn
    simp only [connStep, process_request]
    rw [lookupA_insertA_self, hn]
    rfl

/-- A presence whose driver "carol" set do-not-disturb. -/
def presenceCarol : Presence := ⟨[("carol", 2)], [], [("carol", "dnd")]⟩

/-- Witness for C10: carol re-logs in from another socket and keeps "dnd". -/
theorem login_preserves_driver_status_witness :
    lookupA (connStep presenceCarol 5 (NetInput.line (some (Request.login_driver_ok
      "carol")))).1.driver_status "carol" = some "dnd" :=
  (login_preserves_driver_status presenceCarol 5 "carol").1 "dnd" rfl
